import Mathlib

/-!
Verification of the shutdown-orchestration core of express-graceful-exit.

The definitions below are a shallow embedding of the code in
`src/lib/middleware.ts`, `src/lib/configuration.ts` and `src/lib/graceful-exit.js`:

* configuration resolution (`_.defaults` merge, implied `log`, renamed-option
  aliasing, min/max close-delay clamp, diagnostic warnings);
* the `Middleware` state machine (`initiateGracefulExit`, `callServerClose`,
  `exit`, `hardExitHandler`, `handleFinalRequests`, the connection tracker);
* the entry point `gracefulExitHandler`.

Time is modelled in milliseconds as `Nat`.  JavaScript nullable values are
`Option`; JS truthiness of an optional boolean is `Option.getD false`.
Asynchronous interleavings are modelled by an explicit scheduler: atomic blocks
run between `await` suspension points, and a schedule chooses the order of the
two racing continuations (hard-exit timer firing vs. `server.close` settling).
-/

namespace GracefulExit

/-- Severity of a console diagnostic (`console.warn` vs `console.error`). -/
inductive Severity
  | warn
  | err
  deriving DecidableEq, Repr

/-- The diagnostics that `initiateGracefulExit` can emit while resolving
configuration (middleware.ts lines 115-142). -/
inductive DiagKind
  | trackingUnused
  | trackingMissing
  | minDelayClamped
  | bothPoliciesDisabled
  deriving DecidableEq, Repr

/-- The `socketio` option: `socketsValid` models whether `socketio.sockets` is
non-null (a null value makes `disconnectSocketIOClients` throw), and
`connected` abstracts the collection of connected socket.io clients. -/
structure SocketIOHandle where
  socketsValid : Bool
  connected : List Nat
  deriving DecidableEq, Repr

/-- User-supplied options (the `Configuration` interface of configuration.ts).
`none` models an absent / `undefined` field.  `rejectionResult` models the
result of calling a user-supplied `getRejectionError` with no argument
(`some (some m)` = factory supplied, returns an Error with message `m`;
`some none` = factory supplied but returns `undefined`; `none` = no factory).
`hasCallback`/`callbackIsFunction` model the `callback` option and
`_.isFunction(callback)`. -/
structure Configuration where
  errorDuringExit : Option Bool := none
  performLastRequest : Option Bool := none
  log : Option Bool := none
  hasLogger : Bool := false
  rejectionResult : Option (Option String) := none
  hardExitTimeout : Option Nat := none
  suicideTimeout : Option Nat := none
  exitProcess : Option Bool := none
  serverCloseMaxDelay : Option Nat := none
  serverCloseMinDelay : Option Nat := none
  exitDelay : Option Nat := none
  destroySocketsOnHardExit : Option Bool := none
  force : Option Bool := none
  hasCallback : Bool := false
  callbackIsFunction : Bool := true
  socketio : Option SocketIOHandle := none
  deriving DecidableEq, Repr

/-- The options object after `_.defaults(options, DefaultOptions)`.  Fields
that the later `== null` checks read are kept as `Option` to mirror JS
nullability; the defaults merge always fills them with `some`. -/
structure ResolvedOptions where
  errorDuringExit : Bool
  performLastRequest : Bool
  log : Bool
  rejectionResult : Option String
  hardExitTimeout : Option Nat
  suicideTimeout : Option Nat
  exitProcess : Bool
  serverCloseMaxDelay : Nat
  serverCloseMinDelay : Option Nat
  exitDelay : Nat
  destroySocketsOnHardExit : Option Bool
  force : Option Bool
  hasCallback : Bool
  callbackIsFunction : Bool
  socketio : Option SocketIOHandle
  deriving DecidableEq, Repr

/-- JS truthiness of a nullable boolean. -/
def truthy (b : Option Bool) : Bool := b.getD false

/-- The default rejection message used by `handleFinalRequests` when the
configured factory returns a falsy value (middleware.ts lines 309-312). -/
def defaultRejectionMessage : String :=
  "Server unavailable, no new requests accepted during shutdown"

/-- `_.defaults(options, DefaultOptions)` (middleware.ts line 86), with the
`DefaultOptions` literal of configuration.ts lines 166-179.  Unknown legacy
keys (`suicideTimeout`, `force`) are carried through unchanged; every key
present in `DefaultOptions` is filled when absent in `options`.  The default
`getRejectionError` is `msg => new Error(msg)`, so calling it with no argument
yields a (truthy) Error whose message is empty. -/
def underscoreDefaults (o : Configuration) : ResolvedOptions :=
  { errorDuringExit := o.errorDuringExit.getD true
    performLastRequest := o.performLastRequest.getD true
    log := o.log.getD false
    rejectionResult :=
      match o.rejectionResult with
      | some r => r
      | none => some ""
    hardExitTimeout := some (o.hardExitTimeout.getD 130000)
    suicideTimeout := o.suicideTimeout
    exitProcess := o.exitProcess.getD true
    serverCloseMaxDelay := o.serverCloseMaxDelay.getD 60000
    serverCloseMinDelay := o.serverCloseMinDelay
    exitDelay := o.exitDelay.getD 10
    destroySocketsOnHardExit := some (o.destroySocketsOnHardExit.getD false)
    force := o.force
    hasCallback := o.hasCallback
    callbackIsFunction := o.callbackIsFunction
    socketio := o.socketio }

/-- The renamed-option handling of middleware.ts lines 105-113: the legacy
value is copied only when the merged successor is `== null`. -/
def applyRenamedOptions (r : ResolvedOptions) (options : Configuration) : ResolvedOptions :=
  let r1 :=
    if r.hardExitTimeout = none then { r with hardExitTimeout := options.suicideTimeout }
    else r
  if r1.destroySocketsOnHardExit = none then
    { r1 with destroySocketsOnHardExit := options.force }
  else r1

/-- The min/max close delay consistency check of middleware.ts lines 128-136:
if `serverCloseMinDelay` is set and exceeds `serverCloseMaxDelay` it is clamped
down to the max, with a `console.warn`. -/
def clampMinDelay (r : ResolvedOptions) : ResolvedOptions × List (Severity × DiagKind) :=
  match r.serverCloseMinDelay with
  | some minD =>
      if minD > r.serverCloseMaxDelay then
        ({ r with serverCloseMinDelay := some r.serverCloseMaxDelay },
          [(Severity.warn, DiagKind.minDelayClamped)])
      else (r, [])
  | none => (r, [])

/-- The option-merging steps of `initiateGracefulExit` that precede the
consistency checks (middleware.ts lines 86-113): defaults merge, implied `log`
when a logger is passed without an explicit `log`, renamed options. -/
def preClampOptions (options : Configuration) : ResolvedOptions :=
  let r := underscoreDefaults options
  let r := if options.hasLogger ∧ options.log = none then { r with log := true } else r
  applyRenamedOptions r options

/-- The connection-tracking consistency diagnostics (middleware.ts lines
115-126): a `console.warn` when tracking is active but unused, a
`console.error` when `destroySocketsOnHardExit` is set without tracking. -/
def trackingDiags (r : ResolvedOptions) (trackingSockets : Bool) :
    List (Severity × DiagKind) :=
  (if ¬truthy r.destroySocketsOnHardExit ∧ trackingSockets then
    [(Severity.warn, DiagKind.trackingUnused)] else []) ++
  (if truthy r.destroySocketsOnHardExit ∧ ¬trackingSockets then
    [(Severity.err, DiagKind.trackingMissing)] else [])

/-- The both-policies-disabled `console.error` (middleware.ts lines 138-142). -/
def policyDiags (r : ResolvedOptions) : List (Severity × DiagKind) :=
  if r.errorDuringExit = false ∧ r.performLastRequest = false then
    [(Severity.err, DiagKind.bothPoliciesDisabled)] else []

/-- The configuration-resolution phase of `initiateGracefulExit`
(middleware.ts lines 86-142): defaults merge, implied `log` when a logger is
passed, renamed options, connection-tracking consistency diagnostics, min/max
clamp, and the both-policies-disabled diagnostic. -/
def resolveOptions (options : Configuration) (trackingSockets : Bool) :
    ResolvedOptions × List (Severity × DiagKind) :=
  let r := preClampOptions options
  let clamped := clampMinDelay r
  (clamped.1, trackingDiags r trackingSockets ++ clamped.2 ++ policyDiags clamped.1)

example :
    (resolveOptions { serverCloseMinDelay := some 70000 } false).1.serverCloseMinDelay
      = some 60000 := by decide

example :
    (resolveOptions { suicideTimeout := some 5000 } false).1.hardExitTimeout
      = some 130000 := by decide

/-! ## Connection tracker (middleware.ts lines 327-342)

`base64id.generateId()` produces collision-resistant fresh identifiers; they
are modelled by a monotone counter `nextId`.  The registry `this.sockets` is
modelled by its key set, a list of identifiers. -/

/-- The tracker portion of the `Middleware` instance state:
`sockets` is the key set of the `this.sockets` registry, `socketCount`
mirrors `this._socketCount` (a JS number, hence `Int`), `nextId` generates
fresh identifiers. -/
structure Tracker where
  sockets : List Nat := []
  socketCount : Int := 0
  nextId : Nat := 0
  deriving DecidableEq, Repr

/-- `trackSocketOpen` (middleware.ts lines 327-332): assign a fresh id to the
socket, store it in the registry, increment the counter.  Returns the id that
was written onto the socket's `trackerId` field. -/
def Tracker.trackSocketOpen (t : Tracker) : Tracker × Nat :=
  ({ sockets := t.nextId :: t.sockets
     socketCount := t.socketCount + 1
     nextId := t.nextId + 1 }, t.nextId)

/-- `trackSocketClose` (middleware.ts lines 334-342): no-op when the socket has
no `trackerId` or its id is not in the registry; otherwise remove the entry and
decrement the counter. -/
def Tracker.trackSocketClose (t : Tracker) (trackerId : Option Nat) : Tracker :=
  match trackerId with
  | none => t
  | some id =>
      if id ∈ t.sockets then
        { t with sockets := t.sockets.erase id, socketCount := t.socketCount - 1 }
      else t

/-! ## Middleware state machine -/

/-- Observable actions of the shutdown orchestration.  `terminalAction code` is
emitted exactly when `exit(code)` passes its `exitCalled` guard (the single
terminal entry point); the other events mirror the corresponding side
effects of middleware.ts. -/
inductive Event
  | terminalAction (code : Nat)
  | callbackInvoked (code : Nat)
  | processExit (code : Nat)
  | socketsDestroyed (n : Nat)
  | socketIODisconnected (n : Nat)
  | caughtTopLevel
  | hardExitRan
  deriving DecidableEq, Repr

/-- The mutable fields of a `Middleware` instance (middleware.ts lines 34-44),
plus `closeSettled`, which records that the `server.close` completion
continuation has already run (each completion callback fires at most once). -/
structure MState where
  opts : ResolvedOptions
  exitRequestedDate : Nat := 0
  serverClosedOnce : Bool := false
  connectionsClosed : Bool := false
  draining : Bool := false
  exitCalled : Bool := false
  hardExitTimer : Option Nat := none
  closeSettled : Bool := false
  tracker : Tracker := {}
  deriving DecidableEq, Repr

/-- `Middleware.exit` (middleware.ts lines 241-262): guarded by `exitCalled`;
when the guard passes it invokes the user callback (if callable), clears the
hard-exit timer, and — if `exitProcess` — exits the process with the code
after the exit delay. -/
def MState.exit (s : MState) (code : Nat) : MState × List Event :=
  if s.exitCalled then (s, [])
  else
    let s1 : MState := { s with exitCalled := true, hardExitTimer := none }
    let evCb :=
      if s.opts.hasCallback ∧ s.opts.callbackIsFunction then [Event.callbackInvoked code]
      else []
    let evExit := if s.opts.exitProcess then [Event.processExit code] else []
    (s1, Event.terminalAction code :: (evCb ++ evExit))

/-- `Middleware.hardExitHandler` (middleware.ts lines 264-287).  In the
`connectionsClosed` branch the process is exited with code 1 without passing
through `exit`'s guard; otherwise still-tracked sockets are destroyed when
`destroySocketsOnHardExit` is truthy, and `exit(1)` is called. -/
def MState.hardExitHandler (s : MState) : MState × List Event :=
  if s.connectionsClosed then
    (s, Event.hardExitRan :: (if s.opts.exitProcess then [Event.processExit 1] else []))
  else
    let evDestroy :=
      if truthy s.opts.destroySocketsOnHardExit then
        [Event.socketsDestroyed s.tracker.sockets.length]
      else []
    let r := s.exit 1
    (r.1, Event.hardExitRan :: (evDestroy ++ r.2))

/-- The synchronous prefix of `Middleware.callServerClose` (middleware.ts lines
206-221), up to the `await` on `server.close`: the idempotent
`serverClosedOnce` guard, then — when `exitProcess` — arming the hard-exit
timer for the remaining budget `max 0 (hardExitTimeout - msSinceExitRequested)`
(truncated `Nat` subtraction models the `Math.max(0, ...)`). -/
def callServerClosePhaseA (s : MState) (msSinceExitRequested : Nat) : MState :=
  if s.serverClosedOnce then s
  else
    let s1 : MState := { s with serverClosedOnce := true }
    if s1.opts.exitProcess then
      { s1 with hardExitTimer := some (s1.opts.hardExitTimeout.getD 0 - msSinceExitRequested) }
    else s1

/-- `Middleware.disconnectSocketIOClients` (middleware.ts lines 177-204):
throws when `options.socketio?.sockets` is null; otherwise disconnects every
connected client. -/
def disconnectSocketIOClients (s : MState) : Except String (List Event) :=
  match s.opts.socketio with
  | none => Except.error "disconnectSocketIOClients called with invalid socketio"
  | some h =>
      if h.socketsValid then
        Except.ok
          (if h.connected.length ≠ 0 then [Event.socketIODisconnected h.connected.length]
           else [])
      else Except.error "disconnectSocketIOClients called with invalid socketio"

/-- The continuation of `callServerClose` after `server.close` completes
(middleware.ts lines 227-238): disconnect socket.io clients when configured
(this can throw, propagating the exception), mark `connectionsClosed`, and
call `exit(0)`. -/
def serverCloseSettle (s : MState) : Except String (MState × List Event) :=
  match (if s.opts.socketio.isSome then disconnectSocketIOClients s else Except.ok []) with
  | Except.error e => Except.error e
  | Except.ok evs =>
      let s1 : MState := { s with connectionsClosed := true }
      let r := s1.exit 0
      Except.ok (r.1, evs ++ r.2)

/-- The two racing continuations after `callServerClose` has started: the
hard-exit timer firing, and the `server.close` completion settling. -/
inductive SchedEvent
  | timerFires
  | closeSettles
  deriving DecidableEq, Repr

/-- One scheduler step.  A timer can fire only while armed (a `setTimeout`
fires at most once and `clearTimeout` disarms it; firing consumes it).  The
close continuation runs only once, after `callServerClose` started; an
exception thrown inside it is caught by the top-level `try/catch` of
`initiateGracefulExit` (middleware.ts lines 172-174), which only logs
(`caughtTopLevel`) — the state as at the throw is kept. -/
def step (s : MState) : SchedEvent → MState × List Event
  | SchedEvent.timerFires =>
      match s.hardExitTimer with
      | none => (s, [])
      | some _ => MState.hardExitHandler { s with hardExitTimer := none }
  | SchedEvent.closeSettles =>
      if s.serverClosedOnce ∧ ¬s.closeSettled then
        match serverCloseSettle { s with closeSettled := true } with
        | Except.ok r => r
        | Except.error _ => ({ s with closeSettled := true }, [Event.caughtTopLevel])
      else (s, [])

/-- Run a schedule of suspension-point continuations, collecting events. -/
def runSched (s : MState) : List SchedEvent → MState × List Event
  | [] => (s, [])
  | e :: rest =>
      let r1 := step s e
      let r2 := runSched r1.1 rest
      (r2.1, r1.2 ++ r2.2)

def countTerminal (evs : List Event) : Nat :=
  (evs.filter fun e => match e with | Event.terminalAction _ => true | _ => false).length

def countProcessExit (evs : List Event) : Nat :=
  (evs.filter fun e => match e with | Event.processExit _ => true | _ => false).length

/-! ## Entry points -/

/-- The state-changing prefix of `initiateGracefulExit` (middleware.ts lines
80-142): record the request timestamp, flip `draining`, resolve options. -/
def initiateStart (m : MState) (now : Nat) (options : Configuration)
    (trackingSockets : Bool) : MState × List (Severity × DiagKind) :=
  let r := resolveOptions options trackingSockets
  ({ m with exitRequestedDate := now, draining := true, opts := r.1 }, r.2)

/-- Result of `gracefulExitHandler` (graceful-exit.js lines 62-75):
`noMiddleware` models the missing-middleware console error path,
`alreadyRequested` the re-entry `console.warn` path, `initiated` the path that
starts `initiateGracefulExit`. -/
inductive GEHResult
  | noMiddleware
  | alreadyRequested
  | initiated
  deriving DecidableEq, Repr

/-- `gracefulExitHandler` (graceful-exit.js lines 62-75): fetch the middleware;
if its `gracefulExitHandlerCallTime` (i.e. `exitRequestedDate`) is nonzero,
warn and return without touching it; otherwise start the orchestration. -/
def gracefulExitHandlerStep (mw : Option MState) (now : Nat) (options : Configuration)
    (trackingSockets : Bool) : Option MState × GEHResult :=
  match mw with
  | none => (none, GEHResult.noMiddleware)
  | some m =>
      if m.exitRequestedDate ≠ 0 then (some m, GEHResult.alreadyRequested)
      else (some (initiateStart m now options trackingSockets).1, GEHResult.initiated)

/-- The resolved default options, as held by a freshly constructed
`Middleware` (middleware.ts line 39). -/
def defaultResolved : ResolvedOptions := underscoreDefaults {}

/-- A freshly constructed `Middleware` instance. -/
def freshMState : MState := { opts := defaultResolved }

/-! ## The shutdown poll loop (middleware.ts lines 146-168)

The min-delay block (lines 146-151) reads

  `const remainingMinDelay = this._options.serverCloseMinDelay -`
  `await sleep();`

i.e. it computes `serverCloseMinDelay - (await sleep())` into an unused
variable: `sleep` is `promisify(setTimeout)` and is invoked with **no**
duration, so the actual wait is 0 ms.  The poll loop then waits 50 ms per
iteration; `conns t` is the open-connection count `t` ms after the shutdown
request, and each loop iteration is modelled as advancing elapsed time by
exactly the 50 ms sleep. -/

/-- The wait actually performed by the min-delay block: `await sleep()` with no
duration, hence 0 ms whether or not `serverCloseMinDelay` is configured. -/
def minDelayWaitMs (r : ResolvedOptions) : Nat :=
  match r.serverCloseMinDelay with
  | some _ => 0
  | none => 0

/-- The loop break condition (middleware.ts lines 159-165). -/
def stopPolling (maxD hardT : Nat) (conns : Nat → Nat) (t : Nat) : Prop :=
  conns t ≤ 0 ∨ t > maxD ∨ t > hardT

instance (maxD hardT : Nat) (conns : Nat → Nat) (t : Nat) :
    Decidable (stopPolling maxD hardT conns t) := by
  unfold stopPolling; infer_instance

/-- The poll loop of middleware.ts lines 155-168: starting from elapsed time
`t`, re-check every 50 ms until the connection count reaches zero or the
elapsed time exceeds `serverCloseMaxDelay` or `hardExitTimeout`; returns the
elapsed time at which the loop breaks (i.e. at which `callServerClose` is
initiated). -/
def pollLoop (maxD hardT : Nat) (conns : Nat → Nat) (t : Nat) : Nat :=
  if stopPolling maxD hardT conns t then t
  else pollLoop maxD hardT conns (t + 50)
termination_by maxD + 1 - t
decreasing_by
  simp only [stopPolling, not_or, not_lt, not_le] at *
  omega

/-- Elapsed time (ms since the shutdown request) at which `initiateGracefulExit`
initiates `callServerClose`: the (broken) min-delay wait followed by the poll
loop. -/
def serverCloseAttemptTime (r : ResolvedOptions) (conns : Nat → Nat) : Nat :=
  pollLoop r.serverCloseMaxDelay (r.hardExitTimeout.getD 0) conns (minDelayWaitMs r)

theorem pollLoop_stop {maxD hardT : Nat} {conns : Nat → Nat} {t : Nat}
    (h : stopPolling maxD hardT conns t) : pollLoop maxD hardT conns t = t := by
  rw [pollLoop]; simp [h]

theorem pollLoop_go {maxD hardT : Nat} {conns : Nat → Nat} {t : Nat}
    (h : ¬ stopPolling maxD hardT conns t) :
    pollLoop maxD hardT conns t = pollLoop maxD hardT conns (t + 50) := by
  rw [pollLoop]; simp [h]

example : serverCloseAttemptTime (resolveOptions { serverCloseMinDelay := some 2000 } false).1
    (fun _ => 0) = 0 := by
  rw [serverCloseAttemptTime, pollLoop_stop] <;> decide

/-! ## Request interception (middleware.ts lines 289-321) -/

/-- What `handleFinalRequests` does with one incoming request:
pass it through to application logic (`next()` with no argument),
short-circuit it with a rejection error (`next(err)`), or end the response
silently without invoking `next`. -/
inductive RequestOutcome
  | passedThrough
  | rejectedWith (msg : String)
  | droppedSilently
  deriving DecidableEq, Repr

/-- The per-connection `lastRequestStarted` marker (`none` models the property
being absent on a socket not yet seen while draining). -/
structure ConnTrack where
  lastRequestStarted : Option Bool := none
  deriving DecidableEq, Repr

/-- Result of one `handleFinalRequests` call: the updated connection marker,
the outcome, and whether the `Connection: close` response header was set. -/
structure RequestResult where
  conn : ConnTrack
  outcome : RequestOutcome
  connectionCloseHeader : Bool
  deriving DecidableEq, Repr

/-- `Middleware.handleFinalRequests` (middleware.ts lines 289-321), the
draining-mode policy dispatch for one request on one connection. -/
def handleFinalRequests (r : ResolvedOptions) (c : ConnTrack) : RequestResult :=
  let lrs := c.lastRequestStarted.getD false
  if r.performLastRequest ∧ lrs = false then
    { conn := { lastRequestStarted := some true }
      outcome := RequestOutcome.passedThrough
      connectionCloseHeader := true }
  else if r.errorDuringExit then
    { conn := { lastRequestStarted := some lrs }
      outcome := RequestOutcome.rejectedWith (r.rejectionResult.getD defaultRejectionMessage)
      connectionCloseHeader := true }
  else
    { conn := { lastRequestStarted := some lrs }
      outcome := RequestOutcome.droppedSilently
      connectionCloseHeader := true }

/-- A sequence of `n` requests arriving on a single connection while draining. -/
def handleRequestSeq (r : ResolvedOptions) (c : ConnTrack) : Nat → ConnTrack × List RequestOutcome
  | 0 => (c, [])
  | n + 1 =>
      let res := handleFinalRequests r c
      let rest := handleRequestSeq r res.conn n
      (rest.1, res.outcome :: rest.2)

/-! ## Tracker operation sequences

The `connection` / `close` events wired up by `trackConnections`
(graceful-exit.js lines 24-53) call `trackSocketOpen` / `trackSocketClose` on
socket objects.  Sockets are named by an index `i`; `env i` is the `trackerId`
property currently written on socket `i` (`none` = property absent), as read
by `trackSocketClose`.  `closedSet` and `effectiveCloses` are bookkeeping for
the statements only: they record which sockets have had a close that actually
removed a registry entry, and how many such closes happened. -/

inductive TrackOp
  | openConn (i : Nat)
  | closeConn (i : Nat)
  deriving DecidableEq, Repr

structure TrackRun where
  tracker : Tracker
  env : Nat → Option Nat
  closedSet : Nat → Bool
  effectiveCloses : Nat

def initialTrackRun : TrackRun :=
  { tracker := {}, env := fun _ => none, closedSet := fun _ => false, effectiveCloses := 0 }

/-- Apply one tracker operation: `openConn i` runs `trackSocketOpen` on socket
`i` (writing the fresh id onto its `trackerId`); `closeConn i` runs
`trackSocketClose` with socket `i`'s current `trackerId`. -/
def applyTrackOp (s : TrackRun) : TrackOp → TrackRun
  | TrackOp.openConn i =>
      let r := s.tracker.trackSocketOpen
      { s with tracker := r.1, env := fun j => if j = i then some r.2 else s.env j }
  | TrackOp.closeConn i =>
      let tid := s.env i
      let isEff : Bool :=
        match tid with
        | none => false
        | some id => decide (id ∈ s.tracker.sockets)
      { s with
        tracker := s.tracker.trackSocketClose tid
        closedSet := fun j => if j = i then s.closedSet j || isEff else s.closedSet j
        effectiveCloses := s.effectiveCloses + (if isEff then 1 else 0) }

def runTrackOps (s : TrackRun) : List TrackOp → TrackRun
  | [] => s
  | op :: rest => runTrackOps (applyTrackOp s op) rest

/-- Number of `openConn` operations in a sequence. -/
def countOpens (ops : List TrackOp) : Nat :=
  (ops.filter fun op => match op with | TrackOp.openConn _ => true | _ => false).length

/-- The socket indices targeted by the `openConn` operations of a sequence. -/
def openTargets (ops : List TrackOp) : List Nat :=
  ops.filterMap fun op => match op with | TrackOp.openConn i => some i | _ => none

/-! # Theorems -/

/-! ## Configuration resolution -/

theorem applyRenamedOptions_minDelay (r : ResolvedOptions) (o : Configuration) :
    (applyRenamedOptions r o).serverCloseMinDelay = r.serverCloseMinDelay := by
  simp only [applyRenamedOptions]
  split <;> split <;> rfl

theorem applyRenamedOptions_maxDelay (r : ResolvedOptions) (o : Configuration) :
    (applyRenamedOptions r o).serverCloseMaxDelay = r.serverCloseMaxDelay := by
  simp only [applyRenamedOptions]
  split <;> split <;> rfl

/-- The options object reaching the min/max consistency check keeps the
user-supplied `serverCloseMinDelay`. -/
theorem preClampOptions_minDelay (o : Configuration) :
    (preClampOptions o).serverCloseMinDelay = o.serverCloseMinDelay := by
  simp only [preClampOptions, applyRenamedOptions_minDelay]
  split <;> rfl

/-- The options object reaching the min/max consistency check carries the
defaulted `serverCloseMaxDelay`. -/
theorem preClampOptions_maxDelay (o : Configuration) :
    (preClampOptions o).serverCloseMaxDelay = o.serverCloseMaxDelay.getD 60000 := by
  simp only [preClampOptions, applyRenamedOptions_maxDelay]
  split <;> rfl

theorem trackingDiags_not_minDelay (r : ResolvedOptions) (t : Bool) :
    ∀ x ∈ trackingDiags r t, x.2 ≠ DiagKind.minDelayClamped := by
  intro x hx
  simp only [trackingDiags, List.mem_append] at hx
  rcases hx with h | h <;> split at h <;> simp_all

theorem policyDiags_not_minDelay (r : ResolvedOptions) :
    ∀ x ∈ policyDiags r, x.2 ≠ DiagKind.minDelayClamped := by
  intro x hx
  simp only [policyDiags] at hx
  split at hx <;> simp_all

/-- When the minimum exceeds the maximum, the clamp step rewrites the minimum
to the maximum and emits exactly one `console.warn` diagnostic. -/
theorem clampMinDelay_clamps (r : ResolvedOptions) (m : Nat)
    (h1 : r.serverCloseMinDelay = some m) (h2 : m > r.serverCloseMaxDelay) :
    clampMinDelay r = ({ r with serverCloseMinDelay := some r.serverCloseMaxDelay },
      [(Severity.warn, DiagKind.minDelayClamped)]) := by
  simp only [clampMinDelay]
  rw [h1]
  simp [h2]

/-- Claim C6: whenever `serverCloseMinDelay` is set and exceeds
`serverCloseMaxDelay`, the resolved configuration clamps the minimum down to
exactly the maximum, and the inconsistency produces a `console.warn`
diagnostic and never a `console.error` one. -/
theorem min_delay_clamped_to_max (o : Configuration) (tracking : Bool) (m : Nat)
    (h1 : o.serverCloseMinDelay = some m)
    (h2 : m > o.serverCloseMaxDelay.getD 60000) :
    (resolveOptions o tracking).1.serverCloseMinDelay
        = some (resolveOptions o tracking).1.serverCloseMaxDelay ∧
    (Severity.warn, DiagKind.minDelayClamped) ∈ (resolveOptions o tracking).2 ∧
    ∀ sev, (sev, DiagKind.minDelayClamped) ∈ (resolveOptions o tracking).2 →
      sev = Severity.warn := by
  have hmin : (preClampOptions o).serverCloseMinDelay = some m :=
    (preClampOptions_minDelay o).trans h1
  have hmax : m > (preClampOptions o).serverCloseMaxDelay := by
    rw [preClampOptions_maxDelay]; exact h2
  have hclamp := clampMinDelay_clamps (preClampOptions o) m hmin hmax
  have hres : resolveOptions o tracking =
      ({ preClampOptions o with
          serverCloseMinDelay := some (preClampOptions o).serverCloseMaxDelay },
        trackingDiags (preClampOptions o) tracking ++
          [(Severity.warn, DiagKind.minDelayClamped)] ++
          policyDiags { preClampOptions o with
            serverCloseMinDelay := some (preClampOptions o).serverCloseMaxDelay }) := by
    simp only [resolveOptions, hclamp]
  refine ⟨?_, ?_, ?_⟩
  · rw [hres]
  · rw [hres]
    simp
  · intro sev hsev
    rw [hres] at hsev
    simp only [List.mem_append] at hsev
    rcases hsev with (h | h) | h
    · exact absurd rfl (trackingDiags_not_minDelay _ _ _ h)
    · simp_all
    · exact absurd rfl (policyDiags_not_minDelay _ _ h)

/-- Witness for `min_delay_clamped_to_max` at a concrete configuration
(min 70000 ms > default max 60000 ms). -/
theorem min_delay_clamped_to_max_witness :
    (resolveOptions { serverCloseMinDelay := some 70000 } true).1.serverCloseMinDelay
        = some (resolveOptions { serverCloseMinDelay := some 70000 } true).1.serverCloseMaxDelay ∧
    (Severity.warn, DiagKind.minDelayClamped)
        ∈ (resolveOptions { serverCloseMinDelay := some 70000 } true).2 ∧
    ∀ sev, (sev, DiagKind.minDelayClamped)
        ∈ (resolveOptions { serverCloseMinDelay := some 70000 } true).2 →
      sev = Severity.warn :=
  min_delay_clamped_to_max { serverCloseMinDelay := some 70000 } true 70000 rfl (by decide)

/-- Claim C7 (code bug): a caller supplying only a legacy option name does
*not* get that value as the effective setting.  `_.defaults` always fills
`hardExitTimeout` (130000) and `destroySocketsOnHardExit` (false) from
`DefaultOptions`, so the `== null` alias checks of middleware.ts lines 105-113
can never fire: passing `suicideTimeout: 5000, force: true` leaves the
effective values at the defaults.  The final conjunct states the dead-code
fact in general: the alias step never changes the merged successor fields. -/
theorem deprecated_alias_never_applied :
    (resolveOptions { suicideTimeout := some 5000, force := some true } false).1.hardExitTimeout
        = some 130000 ∧
    (resolveOptions { suicideTimeout := some 5000, force := some true }
        false).1.destroySocketsOnHardExit = some false ∧
    ∀ o : Configuration,
      (preClampOptions o).hardExitTimeout = some (o.hardExitTimeout.getD 130000) ∧
      (preClampOptions o).destroySocketsOnHardExit
          = some (o.destroySocketsOnHardExit.getD false) := by
  refine ⟨by decide, by decide, ?_⟩
  intro o
  simp only [preClampOptions, applyRenamedOptions]
  split <;> simp [underscoreDefaults]

/-- Claim C5 (code bug): with `serverCloseMinDelay := 2000` configured and zero
open connections throughout, `server.close` is initiated at elapsed time 0 ms
— before the 2000 ms floor — because the min-delay block (middleware.ts lines
146-151) computes `remainingMinDelay` into an unused variable and awaits
`sleep()` with no duration. -/
theorem min_delay_not_awaited :
    minDelayWaitMs (resolveOptions { serverCloseMinDelay := some 2000 } false).1 = 0 ∧
    serverCloseAttemptTime (resolveOptions { serverCloseMinDelay := some 2000 } false).1
        (fun _ => 0) = 0 ∧
    serverCloseAttemptTime (resolveOptions { serverCloseMinDelay := some 2000 } false).1
        (fun _ => 0) < 2000 := by
  have h : serverCloseAttemptTime (resolveOptions { serverCloseMinDelay := some 2000 } false).1
      (fun _ => 0) = 0 := by
    rw [serverCloseAttemptTime, pollLoop_stop] <;> decide
  exact ⟨by decide, h, by rw [h]; decide⟩

/-! ## Idempotent shutdown initiation (C2) -/

/-- Claim C2: after a first `gracefulExitHandler` call has recorded a nonzero
shutdown-request timestamp, a second call performs no drain transition and no
orchestration: it returns the middleware state unchanged, reporting only the
re-entry diagnostic. -/
theorem second_initiation_is_noop (m0 : MState) (now1 now2 : Nat)
    (o1 o2 : Configuration) (t1 t2 : Bool)
    (hfresh : m0.exitRequestedDate = 0) (hnow : now1 ≠ 0) :
    (gracefulExitHandlerStep (some m0) now1 o1 t1).2 = GEHResult.initiated ∧
    gracefulExitHandlerStep (gracefulExitHandlerStep (some m0) now1 o1 t1).1 now2 o2 t2
      = ((gracefulExitHandlerStep (some m0) now1 o1 t1).1, GEHResult.alreadyRequested) := by
  simp [gracefulExitHandlerStep, hfresh, initiateStart, hnow]

/-- Witness for `second_initiation_is_noop`: a fresh middleware, first call at
time 1000, second call at time 2000. -/
theorem second_initiation_is_noop_witness :
    (gracefulExitHandlerStep (some freshMState) 1000 {} false).2 = GEHResult.initiated ∧
    gracefulExitHandlerStep (gracefulExitHandlerStep (some freshMState) 1000 {} false).1
        2000 {} false
      = ((gracefulExitHandlerStep (some freshMState) 1000 {} false).1,
          GEHResult.alreadyRequested) :=
  second_initiation_is_noop freshMState 1000 2000 {} {} false false rfl (by decide)

/-! ## Perform-last-request policy (C4) -/

/-- The outcome `handleFinalRequests` gives every request after the
connection's final request has started. -/
def secondaryOutcome (r : ResolvedOptions) : RequestOutcome :=
  if r.errorDuringExit then
    RequestOutcome.rejectedWith (r.rejectionResult.getD defaultRejectionMessage)
  else RequestOutcome.droppedSilently

theorem handleFinalRequests_after_last (r : ResolvedOptions) :
    handleFinalRequests r { lastRequestStarted := some true } =
      { conn := { lastRequestStarted := some true }
        outcome := secondaryOutcome r
        connectionCloseHeader := true } := by
  simp only [handleFinalRequests, secondaryOutcome, Option.getD]
  by_cases he : r.errorDuringExit <;> simp [he]

theorem handleRequestSeq_after_last (r : ResolvedOptions) (n : Nat) :
    handleRequestSeq r { lastRequestStarted := some true } n =
      ({ lastRequestStarted := some true }, List.replicate n (secondaryOutcome r)) := by
  induction n with
  | zero => rfl
  | succ k ih =>
      simp only [handleRequestSeq, handleFinalRequests_after_last, ih, List.replicate_succ]

/-- Claim C4: while draining under the perform-last-request policy, out of any
`n + 1` requests on a single connection exactly the first is passed through to
application logic (`next()` without error); every subsequent request is
short-circuited with the configured-or-default rejection error when
`errorDuringExit` is set, and otherwise ended silently without invoking
`next`.  In particular at most one request is ever passed through. -/
theorem perform_last_request_policy (r : ResolvedOptions) (n : Nat)
    (hp : r.performLastRequest = true) :
    (handleRequestSeq r {} (n + 1)).2 =
      RequestOutcome.passedThrough :: List.replicate n (secondaryOutcome r) ∧
    (handleRequestSeq r {} (n + 1)).2.count RequestOutcome.passedThrough ≤ 1 := by
  have hfirst : handleFinalRequests r {} =
      { conn := { lastRequestStarted := some true }
        outcome := RequestOutcome.passedThrough
        connectionCloseHeader := true } := by
    simp [handleFinalRequests, hp]
  have hseq : (handleRequestSeq r {} (n + 1)).2 =
      RequestOutcome.passedThrough :: List.replicate n (secondaryOutcome r) := by
    simp only [handleRequestSeq, hfirst, handleRequestSeq_after_last]
  refine ⟨hseq, ?_⟩
  rw [hseq]
  have hne : (RequestOutcome.passedThrough == secondaryOutcome r) = false := by
    simp only [secondaryOutcome]
    by_cases he : r.errorDuringExit <;> simp [he]
  simp [List.count_cons, List.count_replicate, hne]
  intro h
  rw [h] at hne
  simp at hne

/-- Witness for `perform_last_request_policy`: the default options (where
`performLastRequest` and `errorDuringExit` are both true) and three requests on
one connection. -/
theorem perform_last_request_policy_witness :
    (handleRequestSeq defaultResolved {} (2 + 1)).2 =
      RequestOutcome.passedThrough :: List.replicate 2 (secondaryOutcome defaultResolved) ∧
    (handleRequestSeq defaultResolved {} (2 + 1)).2.count RequestOutcome.passedThrough ≤ 1 :=
  perform_last_request_policy defaultResolved 2 (by decide)

/-! ## The socket-closure gate (C3) -/

/-- The poll loop always breaks at an elapsed time satisfying its break
condition. -/
theorem pollLoop_stopPolling (maxD hardT : Nat) (conns : Nat → Nat) (t : Nat) :
    stopPolling maxD hardT conns (pollLoop maxD hardT conns t) := by
  by_cases h : stopPolling maxD hardT conns t
  · rw [pollLoop_stop h]; exact h
  · rw [pollLoop_go h]
    exact pollLoop_stopPolling maxD hardT conns (t + 50)
termination_by maxD + 1 - t
decreasing_by
  simp only [stopPolling, not_or, not_lt, not_le] at h
  omega

/-- No observation point strictly before the break point satisfies the break
condition: the loop keeps polling until the first time the condition holds. -/
theorem pollLoop_no_early_stop (maxD hardT : Nat) (conns : Nat → Nat) (t : Nat) :
    ∀ k : Nat, t + 50 * k < pollLoop maxD hardT conns t →
      ¬ stopPolling maxD hardT conns (t + 50 * k) := by
  intro k hk
  by_cases h : stopPolling maxD hardT conns t
  · rw [pollLoop_stop h] at hk; omega
  · cases k with
    | zero => simpa using h
    | succ j =>
        rw [pollLoop_go h] at hk
        have harith : t + 50 * (j + 1) = t + 50 + 50 * j := by ring
        rw [harith] at hk ⊢
        exact pollLoop_no_early_stop maxD hardT conns (t + 50) j hk
termination_by maxD + 1 - t
decreasing_by
  simp only [stopPolling, not_or, not_lt, not_le] at h
  omega

/-- Claim C3: `callServerClose` is initiated exactly at the first observation
point (elapsed ms since the single shutdown-requested timestamp, advancing by
the 50 ms sleep per iteration) at which the open-connection count is zero, or
the elapsed time exceeds `serverCloseMaxDelay`, or it exceeds
`hardExitTimeout` — whichever happens first.  At the break point the condition
holds; at every earlier observation point it fails (the loop keeps polling and
does not close the listening socket); and if the condition already holds at
entry the loop exits immediately. -/
theorem poll_loop_gates_server_close (maxD hardT : Nat) (conns : Nat → Nat) (t : Nat) :
    stopPolling maxD hardT conns (pollLoop maxD hardT conns t) ∧
    (∀ k : Nat, t + 50 * k < pollLoop maxD hardT conns t →
      ¬ stopPolling maxD hardT conns (t + 50 * k)) ∧
    (stopPolling maxD hardT conns t → pollLoop maxD hardT conns t = t) :=
  ⟨pollLoop_stopPolling maxD hardT conns t,
    pollLoop_no_early_stop maxD hardT conns t,
    fun h => pollLoop_stop h⟩

/-- Witness for `poll_loop_gates_server_close`: max delay 100 ms, hard-exit
timeout 1000 ms, one connection that closes at 120 ms, polling from 0. -/
theorem poll_loop_gates_server_close_witness :
    stopPolling 100 1000 (fun u => if u < 120 then 1 else 0)
        (pollLoop 100 1000 (fun u => if u < 120 then 1 else 0) 0) ∧
    (∀ k : Nat, 0 + 50 * k < pollLoop 100 1000 (fun u => if u < 120 then 1 else 0) 0 →
      ¬ stopPolling 100 1000 (fun u => if u < 120 then 1 else 0) (0 + 50 * k)) ∧
    (stopPolling 100 1000 (fun u => if u < 120 then 1 else 0) 0 →
      pollLoop 100 1000 (fun u => if u < 120 then 1 else 0) 0 = 0) :=
  poll_loop_gates_server_close 100 1000 (fun u => if u < 120 then 1 else 0) 0

/-! ## The terminal-action race (C1, C9, C10) -/

/-- The middleware state at the point where `callServerClose` has run its
synchronous prefix: the orchestration recorded the request at `now`, flipped
`draining`, polled for `ms` elapsed milliseconds, and entered
`callServerClose`.  From here the hard-exit timer (if armed) and the
`server.close` completion race. -/
def afterCloseInitiated (r : ResolvedOptions) (tr : Tracker) (now ms : Nat) : MState :=
  callServerClosePhaseA
    { opts := r, exitRequestedDate := now, draining := true, tracker := tr } ms

/-- Reachability invariant of the orchestration race: once
`connectionsClosed` is set the timer has been cleared and the terminal guard
taken, and a taken terminal guard implies a cleared timer. -/
def OrchInv (s : MState) : Prop :=
  (s.connectionsClosed = true → s.hardExitTimer = none ∧ s.exitCalled = true) ∧
  (s.exitCalled = true → s.hardExitTimer = none)

theorem countTerminal_append (l1 l2 : List Event) :
    countTerminal (l1 ++ l2) = countTerminal l1 + countTerminal l2 := by
  simp [countTerminal]

theorem countProcessExit_append (l1 l2 : List Event) :
    countProcessExit (l1 ++ l2) = countProcessExit l1 + countProcessExit l2 := by
  simp [countProcessExit]

theorem afterCloseInitiated_flags (r : ResolvedOptions) (tr : Tracker) (now ms : Nat) :
    (afterCloseInitiated r tr now ms).exitCalled = false ∧
    (afterCloseInitiated r tr now ms).connectionsClosed = false ∧
    (afterCloseInitiated r tr now ms).opts = r ∧
    (afterCloseInitiated r tr now ms).serverClosedOnce = true ∧
    ((afterCloseInitiated r tr now ms).hardExitTimer = none ↔ r.exitProcess = false) ∧
    (afterCloseInitiated r tr now ms).closeSettled = false := by
  simp only [afterCloseInitiated, callServerClosePhaseA]
  by_cases h : r.exitProcess <;> simp [h]

theorem afterCloseInitiated_inv (r : ResolvedOptions) (tr : Tracker) (now ms : Nat) :
    OrchInv (afterCloseInitiated r tr now ms) := by
  obtain ⟨h1, h2, -, -, -, -⟩ := afterCloseInitiated_flags r tr now ms
  exact ⟨fun hc => absurd hc (by simp [h2]), fun hc => absurd hc (by simp [h1])⟩

/-- Behavior of the terminal entry point `exit`: the guard flag is set on
return; the timer ends up cleared; a `terminalAction` event is emitted exactly
when the guard was not yet taken, and a `processExit` only alongside it. -/
theorem exit_spec (s : MState) (code : Nat)
    (htimer : s.exitCalled = true → s.hardExitTimer = none) :
    (s.exit code).1.exitCalled = true ∧
    (s.exit code).1.hardExitTimer = none ∧
    (s.exit code).1.opts = s.opts ∧
    (s.exit code).1.tracker = s.tracker ∧
    (s.exit code).1.connectionsClosed = s.connectionsClosed ∧
    (s.exit code).1.serverClosedOnce = s.serverClosedOnce ∧
    (s.exit code).1.closeSettled = s.closeSettled ∧
    countTerminal (s.exit code).2 = (if s.exitCalled = true then 0 else 1) ∧
    countProcessExit (s.exit code).2
      = (if s.exitCalled = false ∧ s.opts.exitProcess = true then 1 else 0) ∧
    (∀ c, Event.terminalAction c ∈ (s.exit code).2 → c = code) ∧
    Event.hardExitRan ∉ (s.exit code).2 ∧
    (s.opts.exitProcess = false → ∀ c, Event.processExit c ∉ (s.exit code).2) := by
  by_cases h1 : s.exitCalled
  · have ht := htimer h1
    simp [MState.exit, h1, ht, countTerminal, countProcessExit]
  · by_cases h2 : s.opts.hasCallback ∧ s.opts.callbackIsFunction = true <;>
      by_cases h3 : s.opts.exitProcess <;>
        simp [MState.exit, h1, h2, h3, countTerminal, countProcessExit, List.filter]

/-- Behavior of `hardExitHandler` from a state where the connections are not
yet fully closed: it reaches the guarded terminal entry point with failure
code 1. -/
theorem hardExitHandler_spec (s : MState)
    (hconn : s.connectionsClosed = false)
    (htimer : s.exitCalled = true → s.hardExitTimer = none) :
    s.hardExitHandler.1.exitCalled = true ∧
    s.hardExitHandler.1.hardExitTimer = none ∧
    s.hardExitHandler.1.opts = s.opts ∧
    s.hardExitHandler.1.connectionsClosed = s.connectionsClosed ∧
    s.hardExitHandler.1.serverClosedOnce = s.serverClosedOnce ∧
    s.hardExitHandler.1.closeSettled = s.closeSettled ∧
    countTerminal s.hardExitHandler.2 = (if s.exitCalled = true then 0 else 1) ∧
    countProcessExit s.hardExitHandler.2
      = (if s.exitCalled = false ∧ s.opts.exitProcess = true then 1 else 0) ∧
    (∀ c, Event.terminalAction c ∈ s.hardExitHandler.2 → c = 1) ∧
    Event.hardExitRan ∈ s.hardExitHandler.2 ∧
    (s.opts.exitProcess = false → ∀ c, Event.processExit c ∉ s.hardExitHandler.2) := by
  obtain ⟨e1, e2, e3, e4, e5, e6, e7, e8, e9, e10, e11, e12⟩ := exit_spec s 1 htimer
  simp only [MState.hardExitHandler, hconn, Bool.false_eq_true, if_false]
  by_cases hd : truthy s.opts.destroySocketsOnHardExit <;>
    refine ⟨e1, e2, e3, e5.trans ?_, e6, e7, ?_, ?_, ?_, ?_, ?_⟩ <;>
      try simp_all [countTerminal, countProcessExit, List.filter]
  all_goals exact e10

/-- Behavior of the `server.close` completion continuation when it does not
throw: the connections are marked fully closed and the guarded terminal entry
point runs with success code 0. -/
theorem serverCloseSettle_ok (s : MState) (s2 : MState) (evs : List Event)
    (hok : serverCloseSettle s = Except.ok (s2, evs))
    (htimer : s.exitCalled = true → s.hardExitTimer = none) :
    s2.exitCalled = true ∧ s2.hardExitTimer = none ∧ s2.opts = s.opts ∧
    s2.connectionsClosed = true ∧ s2.serverClosedOnce = s.serverClosedOnce ∧
    s2.closeSettled = s.closeSettled ∧
    countTerminal evs = (if s.exitCalled = true then 0 else 1) ∧
    countProcessExit evs
      = (if s.exitCalled = false ∧ s.opts.exitProcess = true then 1 else 0) ∧
    (∀ c, Event.terminalAction c ∈ evs → c = 0) ∧
    Event.hardExitRan ∉ evs ∧
    (s.opts.exitProcess = false → ∀ c, Event.processExit c ∉ evs) := by
  obtain ⟨e1, e2, e3, e4, e5, e6, e7, e8, e9, e10, e11, e12⟩ :=
    exit_spec { s with connectionsClosed := true } 0 (fun hx => htimer hx)
  have hrun : ∃ evs0 : List Event,
      countTerminal evs0 = 0 ∧ countProcessExit evs0 = 0 ∧
      Event.hardExitRan ∉ evs0 ∧ (∀ c, Event.terminalAction c ∉ evs0) ∧
      (∀ c, Event.processExit c ∉ evs0) ∧
      s2 = ({ s with connectionsClosed := true }.exit 0).1 ∧
      evs = evs0 ++ ({ s with connectionsClosed := true }.exit 0).2 := by
    cases hio : s.opts.socketio with
    | none =>
        rw [serverCloseSettle] at hok
        simp only [hio, Option.isSome_none, Bool.false_eq_true, if_false] at hok
        refine ⟨[], rfl, rfl, by simp, by simp, by simp, ?_, ?_⟩ <;> simp_all
    | some sio =>
        cases hv : sio.socketsValid with
        | false =>
            rw [serverCloseSettle] at hok
            simp [hio, disconnectSocketIOClients, hv] at hok
        | true =>
            rw [serverCloseSettle] at hok
            simp only [hio, disconnectSocketIOClients, hv, Option.isSome_some, if_true] at hok
            by_cases hn : sio.connected.length ≠ 0
            · rw [if_pos hn] at hok
              refine ⟨[Event.socketIODisconnected sio.connected.length],
                rfl, rfl, by simp, by simp, by simp, ?_, ?_⟩ <;> simp_all
            · rw [if_neg hn] at hok
              refine ⟨[], rfl, rfl, by simp, by simp, by simp, ?_, ?_⟩ <;> simp_all
  obtain ⟨evs0, c1, c2, c3, c4, c5, hs2, hevs⟩ := hrun
  subst hs2
  subst hevs
  dsimp only at e1 e2 e3 e4 e5 e6 e7 e8 e9 e10 e11 e12
  refine ⟨e1, e2, e3, e5, e6, e7, ?_, ?_, ?_, ?_, ?_⟩
  · rw [countTerminal_append, c1, e8]; simp
  · rw [countProcessExit_append, c2, e9]; simp
  · intro c hc
    rcases List.mem_append.mp hc with hmem | hmem
    · exact absurd hmem (c4 c)
    · exact e10 c hmem
  · intro hc
    rcases List.mem_append.mp hc with hmem | hmem
    · exact c3 hmem
    · exact e11 hmem
  · intro hp c hc
    rcases List.mem_append.mp hc with hmem | hmem
    · exact c5 c hmem
    · exact e12 hp c hmem

/-- One scheduler step preserves the reachability invariant; it emits a
`terminalAction` exactly when it takes the terminal guard, never emits more
`processExit`s than `terminalAction`s, runs the hard-exit path only while a
timer is armed, and — with `exitProcess` disabled — never exits the process
and only ever produces success-code terminal actions. -/
theorem step_spec (s : MState) (e : SchedEvent) (h : OrchInv s) :
    OrchInv (step s e).1 ∧
    (step s e).1.opts = s.opts ∧
    (s.exitCalled = true → (step s e).1.exitCalled = true) ∧
    countTerminal (step s e).2
      = (if (step s e).1.exitCalled = true ∧ s.exitCalled = false then 1 else 0) ∧
    countProcessExit (step s e).2 ≤ countTerminal (step s e).2 ∧
    (Event.hardExitRan ∈ (step s e).2 → (step s e).1.exitCalled = true) ∧
    (s.connectionsClosed = true → (step s e).1.connectionsClosed = true) ∧
    ((step s e).1.connectionsClosed = true →
      s.connectionsClosed = true ∨ (step s e).1.exitCalled = true) ∧
    (s.hardExitTimer = none →
      (step s e).1.hardExitTimer = none ∧ Event.hardExitRan ∉ (step s e).2) ∧
    (∀ c, Event.terminalAction c ∈ (step s e).2 →
      c = 0 ∨ Event.hardExitRan ∈ (step s e).2) ∧
    (s.opts.exitProcess = false → ∀ c, Event.processExit c ∉ (step s e).2) := by
  obtain ⟨hinv1, hinv2⟩ := h
  have noop : ∀ hstep : step s e = (s, []),
      OrchInv (step s e).1 ∧
      (step s e).1.opts = s.opts ∧
      (s.exitCalled = true → (step s e).1.exitCalled = true) ∧
      countTerminal (step s e).2
        = (if (step s e).1.exitCalled = true ∧ s.exitCalled = false then 1 else 0) ∧
      countProcessExit (step s e).2 ≤ countTerminal (step s e).2 ∧
      (Event.hardExitRan ∈ (step s e).2 → (step s e).1.exitCalled = true) ∧
      (s.connectionsClosed = true → (step s e).1.connectionsClosed = true) ∧
      ((step s e).1.connectionsClosed = true →
        s.connectionsClosed = true ∨ (step s e).1.exitCalled = true) ∧
      (s.hardExitTimer = none →
        (step s e).1.hardExitTimer = none ∧ Event.hardExitRan ∉ (step s e).2) ∧
      (∀ c, Event.terminalAction c ∈ (step s e).2 →
        c = 0 ∨ Event.hardExitRan ∈ (step s e).2) ∧
      (s.opts.exitProcess = false → ∀ c, Event.processExit c ∉ (step s e).2) := by
    intro hstep
    rw [hstep]
    refine ⟨⟨hinv1, hinv2⟩, rfl, fun hx => hx, ?_, le_refl _, by simp, fun hc => hc,
      fun hc => Or.inl hc, fun hn => ⟨hn, by simp⟩, fun c hc => absurd hc (by simp),
      fun hp c => by simp⟩
    cases hx : s.exitCalled <;> simp [countTerminal, hx]
  cases e with
  | timerFires =>
      cases ht : s.hardExitTimer with
      | none =>
          obtain ⟨a1, a2, a3, a4, a5, a6, a7, a8, a9, a10, a11⟩ :=
            noop (by simp [step, ht])
          exact ⟨a1, a2, a3, a4, a5, a6, a7, a8, fun _ => a9 ht, a10, a11⟩
      | some d =>
          have hec : s.exitCalled = false := by
            cases hx : s.exitCalled
            · rfl
            · rw [hinv2 hx] at ht; cases ht
          have hcc : s.connectionsClosed = false := by
            cases hx : s.connectionsClosed
            · rfl
            · rw [(hinv1 hx).1] at ht; cases ht
          obtain ⟨g1, g2, g3, g4, g5, g6, g7, g8, g9, g10, g11⟩ :=
            hardExitHandler_spec { s with hardExitTimer := none }
              (by simpa using hcc) (fun _ => rfl)
          have hstep : step s SchedEvent.timerFires
              = MState.hardExitHandler { s with hardExitTimer := none } := by
            simp [step, ht]
          dsimp only at g1 g2 g3 g4 g5 g6 g7 g8 g9 g10 g11
          rw [hstep]
          refine ⟨⟨?_, fun _ => g2⟩, g3, fun hx => g1, ?_, ?_, fun _ => g1, ?_, ?_, ?_,
            ?_, ?_⟩
          · intro hc; exact ⟨g2, g1⟩
          · rw [g7, g1, hec]; simp
          · rw [g7, g8, hec]
            cases hp : s.opts.exitProcess <;> simp
          · intro hx; rw [g4]; exact hx
          · intro hx; right; exact g1
          · intro hx; exact absurd hx (by simp)
          · intro c hc; right; exact g10
          · exact g11
  | closeSettles =>
      by_cases hg : s.serverClosedOnce = true ∧ ¬ s.closeSettled = true
      · rcases hsc : serverCloseSettle { s with closeSettled := true } with msg | r2
        · have hstep : step s SchedEvent.closeSettles
              = ({ s with closeSettled := true }, [Event.caughtTopLevel]) := by
            simp only [step]
            rw [if_pos hg, hsc]
          rw [hstep]
          refine ⟨⟨hinv1, hinv2⟩, rfl, fun hx => hx, ?_, ?_, by simp, fun hc => hc,
            fun hc => Or.inl hc, fun hn => ⟨hn, by simp⟩, fun c hc => absurd hc (by simp),
            fun hp c => by simp⟩
          · cases hx : s.exitCalled <;> simp [countTerminal, hx, List.filter]
          · simp [countTerminal, countProcessExit, List.filter]
        · obtain ⟨f1, f2, f3, f4, f5, f6, f7, f8, f9, f10, f11⟩ :=
            serverCloseSettle_ok { s with closeSettled := true } r2.1 r2.2
              (by rw [hsc]) (fun hx => hinv2 hx)
          dsimp only at f1 f2 f3 f4 f5 f6 f7 f8 f9 f10 f11
          have hstep : step s SchedEvent.closeSettles = (r2.1, r2.2) := by
            simp only [step]
            rw [if_pos hg, hsc]
          rw [hstep]
          refine ⟨⟨fun _ => ⟨f2, f1⟩, fun _ => f2⟩, f3, fun hx => f1, ?_, ?_,
            fun hx => absurd hx f10, fun _ => f4, fun _ => Or.inr f1, ?_, ?_, f11⟩
          · rw [f7, f1]
            cases hx : s.exitCalled <;> simp
          · rw [f7, f8]
            cases hx : s.exitCalled <;> cases hp : s.opts.exitProcess <;> simp
          · intro hx; exact ⟨f2, fun hm => absurd hm f10⟩
          · intro c hc; exact Or.inl (f9 c hc)
      · exact noop (by simp only [step]; rw [if_neg hg])

/-- The step specification, lifted to a whole schedule of suspension-point
continuations. -/
theorem runSched_spec (sched : List SchedEvent) (s : MState) (h : OrchInv s) :
    OrchInv (runSched s sched).1 ∧
    (runSched s sched).1.opts = s.opts ∧
    (s.exitCalled = true → (runSched s sched).1.exitCalled = true) ∧
    countTerminal (runSched s sched).2
      = (if (runSched s sched).1.exitCalled = true ∧ s.exitCalled = false then 1 else 0) ∧
    countProcessExit (runSched s sched).2 ≤ countTerminal (runSched s sched).2 ∧
    (Event.hardExitRan ∈ (runSched s sched).2 → (runSched s sched).1.exitCalled = true) ∧
    (s.connectionsClosed = true → (runSched s sched).1.connectionsClosed = true) ∧
    ((runSched s sched).1.connectionsClosed = true →
      s.connectionsClosed = true ∨ (runSched s sched).1.exitCalled = true) ∧
    (s.hardExitTimer = none →
      (runSched s sched).1.hardExitTimer = none ∧
        Event.hardExitRan ∉ (runSched s sched).2) ∧
    (∀ c, Event.terminalAction c ∈ (runSched s sched).2 →
      c = 0 ∨ Event.hardExitRan ∈ (runSched s sched).2) ∧
    (s.opts.exitProcess = false → ∀ c, Event.processExit c ∉ (runSched s sched).2) := by
  induction sched generalizing s with
  | nil =>
      refine ⟨h, rfl, fun hx => hx, ?_, le_refl _, by simp [runSched], fun hc => hc,
        fun hc => Or.inl hc, fun hn => ⟨hn, by simp [runSched]⟩,
        fun c hc => absurd hc (by simp [runSched]), fun hp c => by simp [runSched]⟩
      cases hx : s.exitCalled <;> simp [runSched, countTerminal, hx]
  | cons ev rest ih =>
      obtain ⟨b1, b2, b3, b4, b5, b6, b7, b8, b9, b10, b11⟩ := step_spec s ev h
      obtain ⟨a1, a2, a3, a4, a5, a6, a7, a8, a9, a10, a11⟩ := ih (step s ev).1 b1
      have hrun : runSched s (ev :: rest)
          = ((runSched (step s ev).1 rest).1,
             (step s ev).2 ++ (runSched (step s ev).1 rest).2) := rfl
      rw [hrun]
      refine ⟨a1, a2.trans b2, fun hx => a3 (b3 hx), ?_, ?_, ?_, fun hc => a7 (b7 hc),
        ?_, ?_, ?_, ?_⟩
      · rw [countTerminal_append, b4, a4]
        cases hx : s.exitCalled <;>
          cases hy : (step s ev).1.exitCalled <;>
            cases hz : (runSched (step s ev).1 rest).1.exitCalled <;>
              simp_all
      · rw [countProcessExit_append, countTerminal_append]
        exact Nat.add_le_add b5 a5
      · intro hm
        rcases List.mem_append.mp hm with hmem | hmem
        · exact a3 (b6 hmem)
        · exact a6 hmem
      · intro hc
        rcases a8 hc with h1 | h2
        · rcases b8 h1 with h3 | h4
          · exact Or.inl h3
          · exact Or.inr (a3 h4)
        · exact Or.inr h2
      · intro hn
        obtain ⟨hn1, hn2⟩ := b9 hn
        obtain ⟨hn3, hn4⟩ := a9 hn1
        refine ⟨hn3, fun hm => ?_⟩
        rcases List.mem_append.mp hm with hmem | hmem
        · exact hn2 hmem
        · exact hn4 hmem
      · intro c hc
        rcases List.mem_append.mp hc with hmem | hmem
        · rcases b10 c hmem with h0 | hr
          · exact Or.inl h0
          · exact Or.inr (List.mem_append_left _ hr)
        · rcases a10 c hmem with h0 | hr
          · exact Or.inl h0
          · exact Or.inr (List.mem_append_right _ hr)
      · intro hp c hm
        rcases List.mem_append.mp hm with hmem | hmem
        · exact b11 hp c hmem
        · exact a11 (by rw [b2]; exact hp) c hmem

/-- Claim C1: from the point where `callServerClose` has started, over every
interleaving of the hard-exit timer firing and the `server.close` completion
settling, the terminal action (the guarded body of `exit`: user callback plus
optional process exit) executes at most once, the process is exited at most
once, and the terminal action executes exactly once as soon as either path
reaches it — the hard-exit handler running, or graceful completion marking
the connections closed. -/
theorem terminal_action_exactly_once (r : ResolvedOptions) (tr : Tracker)
    (now ms : Nat) (sched : List SchedEvent) :
    countTerminal (runSched (afterCloseInitiated r tr now ms) sched).2 ≤ 1 ∧
    countProcessExit (runSched (afterCloseInitiated r tr now ms) sched).2 ≤ 1 ∧
    ((Event.hardExitRan ∈ (runSched (afterCloseInitiated r tr now ms) sched).2 ∨
        (runSched (afterCloseInitiated r tr now ms) sched).1.connectionsClosed = true) →
      countTerminal (runSched (afterCloseInitiated r tr now ms) sched).2 = 1) := by
  obtain ⟨hec, hcc, hopts, hsrv, htm, hcs⟩ := afterCloseInitiated_flags r tr now ms
  obtain ⟨a1, a2, a3, a4, a5, a6, a7, a8, a9, a10, a11⟩ :=
    runSched_spec sched (afterCloseInitiated r tr now ms)
      (afterCloseInitiated_inv r tr now ms)
  have hterm : countTerminal (runSched (afterCloseInitiated r tr now ms) sched).2
      = if (runSched (afterCloseInitiated r tr now ms) sched).1.exitCalled = true
        then 1 else 0 := by
    rw [a4, hec]
    cases hz : (runSched (afterCloseInitiated r tr now ms) sched).1.exitCalled <;> simp
  refine ⟨?_, ?_, ?_⟩
  · rw [hterm]; split <;> omega
  · refine le_trans a5 ?_
    rw [hterm]; split <;> omega
  · intro htrig
    rcases htrig with hm | hcl
    · rw [hterm, a6 hm]; simp
    · rcases a8 hcl with h1 | h2
      · rw [hcc] at h1; cases h1
      · rw [hterm, h2]; simp

/-- Witness for `terminal_action_exactly_once`: default options, empty
tracker, a schedule where close settles and then the timer fires. -/
theorem terminal_action_exactly_once_witness :
    countTerminal (runSched (afterCloseInitiated defaultResolved {} 1 0)
      [SchedEvent.closeSettles, SchedEvent.timerFires]).2 ≤ 1 ∧
    countProcessExit (runSched (afterCloseInitiated defaultResolved {} 1 0)
      [SchedEvent.closeSettles, SchedEvent.timerFires]).2 ≤ 1 ∧
    ((Event.hardExitRan ∈ (runSched (afterCloseInitiated defaultResolved {} 1 0)
        [SchedEvent.closeSettles, SchedEvent.timerFires]).2 ∨
      (runSched (afterCloseInitiated defaultResolved {} 1 0)
        [SchedEvent.closeSettles, SchedEvent.timerFires]).1.connectionsClosed = true) →
      countTerminal (runSched (afterCloseInitiated defaultResolved {} 1 0)
        [SchedEvent.closeSettles, SchedEvent.timerFires]).2 = 1) :=
  terminal_action_exactly_once defaultResolved {} 1 0
    [SchedEvent.closeSettles, SchedEvent.timerFires]

/-- Claim C10: with `exitProcess` disabled, `callServerClose` never arms the
hard-exit timer, so over every schedule the hard-exit path never runs, the
process is never exited, and the only possible terminal action is the
graceful one with success code 0 (executed at most once). -/
theorem no_hard_exit_when_exitProcess_false (r : ResolvedOptions) (tr : Tracker)
    (now ms : Nat) (sched : List SchedEvent) (h : r.exitProcess = false) :
    (afterCloseInitiated r tr now ms).hardExitTimer = none ∧
    Event.hardExitRan ∉ (runSched (afterCloseInitiated r tr now ms) sched).2 ∧
    (∀ c, Event.processExit c ∉ (runSched (afterCloseInitiated r tr now ms) sched).2) ∧
    (∀ c, Event.terminalAction c ∈ (runSched (afterCloseInitiated r tr now ms) sched).2 →
      c = 0) ∧
    countTerminal (runSched (afterCloseInitiated r tr now ms) sched).2 ≤ 1 := by
  obtain ⟨hec, hcc, hopts, hsrv, htm, hcs⟩ := afterCloseInitiated_flags r tr now ms
  obtain ⟨a1, a2, a3, a4, a5, a6, a7, a8, a9, a10, a11⟩ :=
    runSched_spec sched (afterCloseInitiated r tr now ms)
      (afterCloseInitiated_inv r tr now ms)
  have htimer0 : (afterCloseInitiated r tr now ms).hardExitTimer = none := htm.mpr h
  obtain ⟨hnone, hnm⟩ := a9 htimer0
  refine ⟨htimer0, hnm, ?_, ?_, ?_⟩
  · exact a11 (by rw [hopts]; exact h)
  · intro c hc
    rcases a10 c hc with h0 | hr
    · exact h0
    · exact absurd hr hnm
  · rw [a4, hec]
    cases hz : (runSched (afterCloseInitiated r tr now ms) sched).1.exitCalled <;> simp

/-- Witness for `no_hard_exit_when_exitProcess_false`: options resolved from a
user configuration with `exitProcess: false`, a schedule where close settles
and a timer event is attempted afterwards. -/
theorem no_hard_exit_when_exitProcess_false_witness :
    (afterCloseInitiated (resolveOptions { exitProcess := some false } false).1 {} 1 0
      ).hardExitTimer = none ∧
    Event.hardExitRan ∉ (runSched
      (afterCloseInitiated (resolveOptions { exitProcess := some false } false).1 {} 1 0)
      [SchedEvent.closeSettles, SchedEvent.timerFires]).2 ∧
    (∀ c, Event.processExit c ∉ (runSched
      (afterCloseInitiated (resolveOptions { exitProcess := some false } false).1 {} 1 0)
      [SchedEvent.closeSettles, SchedEvent.timerFires]).2) ∧
    (∀ c, Event.terminalAction c ∈ (runSched
      (afterCloseInitiated (resolveOptions { exitProcess := some false } false).1 {} 1 0)
      [SchedEvent.closeSettles, SchedEvent.timerFires]).2 → c = 0) ∧
    countTerminal (runSched
      (afterCloseInitiated (resolveOptions { exitProcess := some false } false).1 {} 1 0)
      [SchedEvent.closeSettles, SchedEvent.timerFires]).2 ≤ 1 :=
  no_hard_exit_when_exitProcess_false (resolveOptions { exitProcess := some false } false).1
    {} 1 0 [SchedEvent.closeSettles, SchedEvent.timerFires] (by decide)

/-- A positive terminal count exhibits a terminal event. -/
theorem countTerminal_pos_mem (evs : List Event) (h : 0 < countTerminal evs) :
    ∃ c, Event.terminalAction c ∈ evs := by
  unfold countTerminal at h
  obtain ⟨x, hx⟩ := List.exists_mem_of_length_pos h
  have hmem := List.mem_of_mem_filter hx
  have hpred := List.of_mem_filter hx
  rcases x with c | c | c | n | n | _ | _
  · exact ⟨c, hmem⟩
  all_goals simp at hpred

/-- When the `server.close` continuation hits a malformed socket.io handle, the
top-level catch converts the exception into a logged diagnostic and the state
keeps everything except the settled flag. -/
theorem step_closeSettles_error (s : MState) (sio : SocketIOHandle)
    (h1 : s.serverClosedOnce = true) (h2 : s.closeSettled = false)
    (h3 : s.opts.socketio = some sio) (h4 : sio.socketsValid = false) :
    step s SchedEvent.closeSettles
      = ({ s with closeSettled := true }, [Event.caughtTopLevel]) := by
  have hsc : serverCloseSettle { s with closeSettled := true }
      = Except.error "disconnectSocketIOClients called with invalid socketio" := by
    rw [serverCloseSettle]
    simp [h3, disconnectSocketIOClients, h4]
  simp only [step]
  rw [if_pos ⟨h1, by simp [h2]⟩, hsc]

/-- Claim C9: an exception inside the orchestration sequence — here a
malformed socket.io handle throwing during the auxiliary-channel disconnect —
is caught at the top level and logged (`caughtTopLevel`), produces no terminal
action by itself, and leaves the already-armed hard-exit countdown in place,
so that when the countdown fires the shutdown still converges to exactly one
terminal action, with failure code 1. -/
theorem orchestration_exceptions_caught (r : ResolvedOptions) (tr : Tracker)
    (now ms : Nat) (sio : SocketIOHandle)
    (hexit : r.exitProcess = true) (hsio : r.socketio = some sio)
    (hbad : sio.socketsValid = false) :
    Event.caughtTopLevel
        ∈ (step (afterCloseInitiated r tr now ms) SchedEvent.closeSettles).2 ∧
    countTerminal (step (afterCloseInitiated r tr now ms) SchedEvent.closeSettles).2 = 0 ∧
    (step (afterCloseInitiated r tr now ms) SchedEvent.closeSettles).1.hardExitTimer
        = (afterCloseInitiated r tr now ms).hardExitTimer ∧
    (afterCloseInitiated r tr now ms).hardExitTimer ≠ none ∧
    countTerminal (runSched (afterCloseInitiated r tr now ms)
        [SchedEvent.closeSettles, SchedEvent.timerFires]).2 = 1 ∧
    Event.terminalAction 1 ∈ (runSched (afterCloseInitiated r tr now ms)
        [SchedEvent.closeSettles, SchedEvent.timerFires]).2 := by
  obtain ⟨hec, hcc, hopts, hsrv, htm, hcs⟩ := afterCloseInitiated_flags r tr now ms
  have h1 := step_closeSettles_error (afterCloseInitiated r tr now ms) sio hsrv hcs
    (by rw [hopts]; exact hsio) hbad
  have htne : (afterCloseInitiated r tr now ms).hardExitTimer ≠ none := by
    intro hx
    rw [htm.mp hx] at hexit
    cases hexit
  obtain ⟨d, hd⟩ : ∃ d, (afterCloseInitiated r tr now ms).hardExitTimer = some d := by
    cases hx : (afterCloseInitiated r tr now ms).hardExitTimer
    · exact absurd hx htne
    · exact ⟨_, rfl⟩
  have hstep2 : step { afterCloseInitiated r tr now ms with closeSettled := true }
      SchedEvent.timerFires
      = MState.hardExitHandler { afterCloseInitiated r tr now ms with
          closeSettled := true, hardExitTimer := none } := by
    simp only [step]
    have : ({ afterCloseInitiated r tr now ms with
        closeSettled := true } : MState).hardExitTimer = some d := hd
    rw [this]
  obtain ⟨g1, g2, g3, g4, g5, g6, g7, g8, g9, g10, g11⟩ :=
    hardExitHandler_spec { afterCloseInitiated r tr now ms with
        closeSettled := true, hardExitTimer := none }
      (by simpa using hcc) (fun _ => rfl)
  dsimp only at g1 g2 g3 g4 g5 g6 g7 g8 g9 g10 g11
  have hcnt : countTerminal (MState.hardExitHandler { afterCloseInitiated r tr now ms with
      closeSettled := true, hardExitTimer := none }).2 = 1 := by
    rw [g7, hec]
    simp
  have hrun : runSched (afterCloseInitiated r tr now ms)
      [SchedEvent.closeSettles, SchedEvent.timerFires]
      = ((MState.hardExitHandler { afterCloseInitiated r tr now ms with
            closeSettled := true, hardExitTimer := none }).1,
         [Event.caughtTopLevel]
           ++ ((MState.hardExitHandler { afterCloseInitiated r tr now ms with
                closeSettled := true, hardExitTimer := none }).2 ++ [])) := by
    simp only [runSched, h1, hstep2]
  have hruncnt : countTerminal (runSched (afterCloseInitiated r tr now ms)
      [SchedEvent.closeSettles, SchedEvent.timerFires]).2 = 1 := by
    rw [hrun]
    simp only [countTerminal_append, hcnt]
    simp [countTerminal]
  refine ⟨by rw [h1]; simp, by rw [h1]; simp [countTerminal], by rw [h1], htne, hruncnt, ?_⟩
  obtain ⟨c, hcmem⟩ := countTerminal_pos_mem _ (by rw [hcnt]; omega)
  have hc1 : c = 1 := g9 c hcmem
  rw [hrun]
  subst hc1
  simp only [List.mem_append, List.mem_singleton]
  right
  left
  exact hcmem

/-- A malformed socket.io handle: its `sockets` field is null, so
`disconnectSocketIOClients` throws on it. -/
def badSocketIO : SocketIOHandle := { socketsValid := false, connected := [] }

/-- Options resolved from a user configuration carrying the malformed
socket.io handle. -/
def badSocketIOOptions : ResolvedOptions :=
  (resolveOptions { socketio := some badSocketIO } false).1

/-- Witness for `orchestration_exceptions_caught` at the malformed handle. -/
theorem orchestration_exceptions_caught_witness :
    Event.caughtTopLevel
        ∈ (step (afterCloseInitiated badSocketIOOptions {} 1 0) SchedEvent.closeSettles).2 ∧
    countTerminal
        (step (afterCloseInitiated badSocketIOOptions {} 1 0) SchedEvent.closeSettles).2 = 0 ∧
    (step (afterCloseInitiated badSocketIOOptions {} 1 0) SchedEvent.closeSettles).1.hardExitTimer
        = (afterCloseInitiated badSocketIOOptions {} 1 0).hardExitTimer ∧
    (afterCloseInitiated badSocketIOOptions {} 1 0).hardExitTimer ≠ none ∧
    countTerminal (runSched (afterCloseInitiated badSocketIOOptions {} 1 0)
        [SchedEvent.closeSettles, SchedEvent.timerFires]).2 = 1 ∧
    Event.terminalAction 1 ∈ (runSched (afterCloseInitiated badSocketIOOptions {} 1 0)
        [SchedEvent.closeSettles, SchedEvent.timerFires]).2 :=
  orchestration_exceptions_caught badSocketIOOptions {} 1 0 badSocketIO
    (by decide) (by decide) (by decide)

/-! ## Tracker correctness (C8) -/

/-- Invariant of a tracker run: the live counter matches the registry size,
the registry has no duplicate identifiers, all identifiers (registered or
assigned to sockets) are below the freshness counter, and every socket marked
effectively-closed carries an identifier that is absent from the registry. -/
def TrackInv (s : TrackRun) : Prop :=
  s.tracker.socketCount = s.tracker.sockets.length ∧
  s.tracker.sockets.Nodup ∧
  (∀ id ∈ s.tracker.sockets, id < s.tracker.nextId) ∧
  (∀ i id, s.env i = some id → id < s.tracker.nextId) ∧
  (∀ i, s.closedSet i = true → ∃ id, s.env i = some id ∧ id ∉ s.tracker.sockets)

theorem applyTrackOp_open_spec (s : TrackRun) (i : Nat) (h : TrackInv s)
    (hi : s.env i = none) :
    TrackInv (applyTrackOp s (TrackOp.openConn i)) ∧
    (applyTrackOp s (TrackOp.openConn i)).tracker.socketCount
      = s.tracker.socketCount + 1 ∧
    (applyTrackOp s (TrackOp.openConn i)).effectiveCloses = s.effectiveCloses ∧
    (applyTrackOp s (TrackOp.openConn i)).closedSet = s.closedSet ∧
    (∀ j, j ≠ i → (applyTrackOp s (TrackOp.openConn i)).env j = s.env j) := by
  obtain ⟨hcount, hnodup, hlt, henv, hclosed⟩ := h
  dsimp only [applyTrackOp, Tracker.trackSocketOpen, TrackInv]
  refine ⟨⟨?_, ?_, ?_, ?_, ?_⟩, rfl, rfl, rfl, ?_⟩
  · simp only [List.length_cons]
    rw [hcount]
    push_cast
    ring
  · exact List.nodup_cons.mpr ⟨fun hm => absurd (hlt _ hm) (lt_irrefl _), hnodup⟩
  · intro id hm
    rcases List.mem_cons.mp hm with hcase | hcase
    · omega
    · exact Nat.lt_succ_of_lt (hlt _ hcase)
  · intro j id hj
    by_cases hji : j = i
    · rw [if_pos hji] at hj
      cases hj
      omega
    · rw [if_neg hji] at hj
      exact Nat.lt_succ_of_lt (henv j id hj)
  · intro j hj
    obtain ⟨id, hid, hnm⟩ := hclosed j hj
    have hji : j ≠ i := by
      intro hx
      rw [hx, hi] at hid
      cases hid
    refine ⟨id, by rw [if_neg hji]; exact hid, ?_⟩
    intro hm
    rcases List.mem_cons.mp hm with hcase | hcase
    · have := henv j id hid
      omega
    · exact hnm hcase
  · intro j hji
    rw [if_neg hji]

theorem applyTrackOp_close_spec (s : TrackRun) (i : Nat) (h : TrackInv s) :
    TrackInv (applyTrackOp s (TrackOp.closeConn i)) ∧
    (applyTrackOp s (TrackOp.closeConn i)).tracker.socketCount
        + ((applyTrackOp s (TrackOp.closeConn i)).effectiveCloses : Int)
      = s.tracker.socketCount + (s.effectiveCloses : Int) ∧
    (applyTrackOp s (TrackOp.closeConn i)).env = s.env := by
  obtain ⟨hcount, hnodup, hlt, henv, hclosed⟩ := h
  dsimp only [applyTrackOp, Tracker.trackSocketClose, TrackInv]
  cases henvi : s.env i with
  | none =>
      refine ⟨⟨hcount, hnodup, hlt, henv, ?_⟩, by push_cast; ring, rfl⟩
      intro j hj
      by_cases hji : j = i
      · rw [if_pos hji] at hj
        simp only [Bool.or_false] at hj
        exact hclosed j hj
      · rw [if_neg hji] at hj
        exact hclosed j hj
  | some id =>
      dsimp only
      by_cases hmem : id ∈ s.tracker.sockets
      · have hdec : decide (id ∈ s.tracker.sockets) = true := decide_eq_true hmem
        have hpos : 0 < s.tracker.sockets.length := List.length_pos_of_mem hmem
        rw [if_pos hmem]
        simp only [hdec, if_true, Bool.or_true]
        refine ⟨⟨?_, hnodup.erase id, ?_, henv, ?_⟩, ?_, trivial⟩
        · rw [List.length_erase_of_mem hmem, hcount]
          omega
        · intro x hx
          exact hlt x (List.mem_of_mem_erase hx)
        · intro j hj
          by_cases hji : j = i
          · exact ⟨id, by rw [hji]; exact henvi, hnodup.not_mem_erase⟩
          · rw [if_neg hji] at hj
            obtain ⟨id2, hid2, hnm2⟩ := hclosed j hj
            exact ⟨id2, hid2, fun hm => hnm2 (List.mem_of_mem_erase hm)⟩
        · push_cast
          ring
      · have hdec : decide (id ∈ s.tracker.sockets) = false := decide_eq_false hmem
        rw [if_neg hmem]
        simp only [hdec, if_false, Bool.or_false]
        refine ⟨⟨hcount, hnodup, hlt, henv, ?_⟩, by push_cast; ring, trivial⟩
        intro j hj
        by_cases hji : j = i
        · rw [if_pos hji] at hj
          exact hclosed j hj
        · rw [if_neg hji] at hj
          exact hclosed j hj

theorem countOpens_cons_open (i : Nat) (rest : List TrackOp) :
    countOpens (TrackOp.openConn i :: rest) = countOpens rest + 1 := by
  simp [countOpens, List.filter]

theorem countOpens_cons_close (i : Nat) (rest : List TrackOp) :
    countOpens (TrackOp.closeConn i :: rest) = countOpens rest := by
  simp [countOpens, List.filter]

theorem openTargets_cons_open (i : Nat) (rest : List TrackOp) :
    openTargets (TrackOp.openConn i :: rest) = i :: openTargets rest := by
  simp [openTargets]

theorem openTargets_cons_close (i : Nat) (rest : List TrackOp) :
    openTargets (TrackOp.closeConn i :: rest) = openTargets rest := by
  simp [openTargets]

/-- Running a sequence of tracker operations preserves the invariant and
satisfies the counting equation: live count plus effective closes equals the
prior sum plus the number of opens processed. -/
theorem runTrackOps_spec (ops : List TrackOp) (s : TrackRun) (h : TrackInv s)
    (honce : (openTargets ops).Nodup)
    (hfresh : ∀ i ∈ openTargets ops, s.env i = none) :
    TrackInv (runTrackOps s ops) ∧
    (runTrackOps s ops).tracker.socketCount
        + ((runTrackOps s ops).effectiveCloses : Int)
      = s.tracker.socketCount + (s.effectiveCloses : Int) + countOpens ops := by
  induction ops generalizing s with
  | nil =>
      exact ⟨h, by simp [runTrackOps, countOpens]⟩
  | cons op rest ih =>
      have hrun : runTrackOps s (op :: rest) = runTrackOps (applyTrackOp s op) rest := rfl
      cases op with
      | openConn i =>
          have hi : s.env i = none :=
            hfresh i (by rw [openTargets_cons_open]; exact List.mem_cons_self i _)
          obtain ⟨h1, h2, h3, h4, h5⟩ := applyTrackOp_open_spec s i h hi
          rw [openTargets_cons_open] at honce hfresh
          have hinotin : i ∉ openTargets rest := (List.nodup_cons.mp honce).1
          have honce' : (openTargets rest).Nodup := (List.nodup_cons.mp honce).2
          have hfresh' : ∀ j ∈ openTargets rest,
              (applyTrackOp s (TrackOp.openConn i)).env j = none := by
            intro j hj
            have hji : j ≠ i := fun hx => hinotin (hx ▸ hj)
            rw [h5 j hji]
            exact hfresh j (List.mem_cons_of_mem _ hj)
          obtain ⟨r1, r2⟩ := ih (applyTrackOp s (TrackOp.openConn i)) h1 honce' hfresh'
          refine ⟨hrun ▸ r1, ?_⟩
          rw [hrun, r2, h2, h3, countOpens_cons_open]
          push_cast
          ring
      | closeConn i =>
          obtain ⟨h1, h2, h3⟩ := applyTrackOp_close_spec s i h
          rw [openTargets_cons_close] at honce hfresh
          have hfresh' : ∀ j ∈ openTargets rest,
              (applyTrackOp s (TrackOp.closeConn i)).env j = none := by
            intro j hj
            rw [h3]
            exact hfresh j hj
          obtain ⟨r1, r2⟩ := ih (applyTrackOp s (TrackOp.closeConn i)) h1 honce hfresh'
          refine ⟨hrun ▸ r1, ?_⟩
          rw [hrun, r2, countOpens_cons_close]
          omega

/-- Claim C8: for any operation sequence in which each socket is opened at
most once (closes interleaved arbitrarily, including closes of untracked or
already-removed sockets, which are no-ops), the live socket count equals the
number of opens minus the number of closes that removed a currently-tracked
socket; the count always matches the registry size; and a registry lookup for
any effectively-closed socket's identifier misses. -/
theorem tracker_count_and_lookup (ops : List TrackOp)
    (honce : (openTargets ops).Nodup) :
    (runTrackOps initialTrackRun ops).tracker.socketCount
      = (countOpens ops : Int) - ((runTrackOps initialTrackRun ops).effectiveCloses : Int) ∧
    (runTrackOps initialTrackRun ops).tracker.socketCount
      = ((runTrackOps initialTrackRun ops).tracker.sockets.length : Int) ∧
    (∀ i, (runTrackOps initialTrackRun ops).closedSet i = true →
      ∃ id, (runTrackOps initialTrackRun ops).env i = some id ∧
        id ∉ (runTrackOps initialTrackRun ops).tracker.sockets) := by
  have hinv0 : TrackInv initialTrackRun := by
    refine ⟨rfl, List.nodup_nil, ?_, ?_, ?_⟩ <;> simp [initialTrackRun]
  obtain ⟨⟨i1, i2, i3, i4, i5⟩, hsum⟩ :=
    runTrackOps_spec ops initialTrackRun hinv0 honce (fun i _ => rfl)
  have hz1 : initialTrackRun.tracker.socketCount = 0 := rfl
  have hz2 : (initialTrackRun.effectiveCloses : Int) = 0 := rfl
  rw [hz1, hz2] at hsum
  refine ⟨by omega, i1, i5⟩

/-- Witness for `tracker_count_and_lookup`: open sockets 0 and 1, close 0
twice (second is a no-op), close never-tracked socket 5. -/
theorem tracker_count_and_lookup_witness :
    (runTrackOps initialTrackRun [TrackOp.openConn 0, TrackOp.openConn 1,
        TrackOp.closeConn 0, TrackOp.closeConn 0, TrackOp.closeConn 5]).tracker.socketCount
      = (countOpens [TrackOp.openConn 0, TrackOp.openConn 1, TrackOp.closeConn 0,
          TrackOp.closeConn 0, TrackOp.closeConn 5] : Int)
        - ((runTrackOps initialTrackRun [TrackOp.openConn 0, TrackOp.openConn 1,
            TrackOp.closeConn 0, TrackOp.closeConn 0,
            TrackOp.closeConn 5]).effectiveCloses : Int) ∧
    (runTrackOps initialTrackRun [TrackOp.openConn 0, TrackOp.openConn 1,
        TrackOp.closeConn 0, TrackOp.closeConn 0, TrackOp.closeConn 5]).tracker.socketCount
      = ((runTrackOps initialTrackRun [TrackOp.openConn 0, TrackOp.openConn 1,
          TrackOp.closeConn 0, TrackOp.closeConn 0,
          TrackOp.closeConn 5]).tracker.sockets.length : Int) ∧
    (∀ i, (runTrackOps initialTrackRun [TrackOp.openConn 0, TrackOp.openConn 1,
        TrackOp.closeConn 0, TrackOp.closeConn 0, TrackOp.closeConn 5]).closedSet i = true →
      ∃ id, (runTrackOps initialTrackRun [TrackOp.openConn 0, TrackOp.openConn 1,
          TrackOp.closeConn 0, TrackOp.closeConn 0, TrackOp.closeConn 5]).env i = some id ∧
        id ∉ (runTrackOps initialTrackRun [TrackOp.openConn 0, TrackOp.openConn 1,
          TrackOp.closeConn 0, TrackOp.closeConn 0,
          TrackOp.closeConn 5]).tracker.sockets) :=
  tracker_count_and_lookup [TrackOp.openConn 0, TrackOp.openConn 1, TrackOp.closeConn 0,
    TrackOp.closeConn 0, TrackOp.closeConn 5] (by decide)

end GracefulExit
